import Mathlib

/-!
Shallow embedding of the exchange-rate-service repository (Go) for checking
its natural-language specification.

Modelling conventions:
* `time.Time` instants are modelled as `Int` nanoseconds since the epoch
  (UTC, no leap seconds — exactly Go's absolute-time arithmetic for UTC
  instants).  `Truncate(24*time.Hour)` floors to a multiple of a day and
  `AddDate(0, 0, n)` on a UTC instant adds `n` whole days.
* `Format("2006-01-02")` depends only on the UTC calendar day of the
  instant, so it is modelled as the decimal print of the day number: a
  bijection between day-granular instants and the day strings.
* Go `float64` rate and amount values are modelled as `ℚ`; none of the
  checked claims depends on rounding, and the code's division formulas are
  carried over verbatim (note: `ℚ` division by zero yields `0` where Go
  float division yields `±Inf` — where this matters the theorems only speak
  about success/failure, not the divided value's float behaviour).
* Go `map[string]V` values read through `m[k]` are modelled as association
  lists with first-match lookup; map assignment is modelled by an insert
  that removes the shadowed key, preserving Go's overwrite semantics.
* Fallible Go functions returning `(T, error)` become `Except String T`
  (the repository only ever inspects errors for nil-ness and message text).
* Side-effecting methods take their receiver state and the current clock
  explicitly and return the new state; `context.Context`, logging and
  mutexes (concurrency) are not modelled — every claim below is about the
  sequential functional behaviour.
-/

set_option autoImplicit false

namespace ExchangeRateService

/-- Nanoseconds in 24 hours, the granularity of `Truncate(24 * time.Hour)`. -/
def nsPerDay : Int := 86400000000000

/-- Models `t.UTC().Truncate(24 * time.Hour)`: floor `t` to a whole UTC day. -/
def truncDay (t : Int) : Int := nsPerDay * (t.fdiv nsPerDay)

/-- Models `t.AddDate(0, 0, n)` on a UTC instant: add `n` calendar days. -/
def addDays (t : Int) (n : Int) : Int := t + n * nsPerDay

/-- Models `t.Format("2006-01-02")`: the UTC day of `t`, printed.  Two
instants format equal iff they fall on the same UTC day. -/
def formatDay (t : Int) : String := toString (t.fdiv nsPerDay)

/-- Go `type Currency string` (internal/domain/model/currency.go). -/
abbrev Currency := String

def USD : Currency := "USD"

def INR : Currency := "INR"

def EUR : Currency := "EUR"

def JPY : Currency := "JPY"

def GBP : Currency := "GBP"

/-- `model.SupportedCurrencies` (internal/domain/model/currency.go). -/
def SupportedCurrencies : List Currency := [USD, INR, EUR, JPY, GBP]

/-- `Currency.IsSupported()`: membership in the fixed supported set. -/
def Currency.IsSupported (c : Currency) : Bool :=
  SupportedCurrencies.contains c

/-- `model.CurrencyPair` (internal/domain/model). -/
structure CurrencyPair where
  baseCurrency : Currency
  targetCurrency : Currency
deriving DecidableEq, Repr

/-- `CurrencyPair.String()`: `fmt.Sprintf("%s-%s", base, target)`. -/
def CurrencyPair.str (p : CurrencyPair) : String :=
  p.baseCurrency ++ "-" ++ p.targetCurrency

/-- `model.ExchangeRate` (internal/domain/model); `Rate float64` as `ℚ`,
`Date`/`LastUpdated` as instants. -/
structure ExchangeRate where
  baseCurrency : Currency
  targetCurrency : Currency
  rate : ℚ
  date : Int
  lastUpdated : Int
deriving DecidableEq, Repr

/-- `model.ConversionRequest`; the Go zero `time.Time` sentinel
(`Date.IsZero()`) is modelled by `none`. -/
structure ConversionRequest where
  fromCurrency : Currency
  toCurrency : Currency
  amount : ℚ
  date : Option Int
deriving DecidableEq, Repr

/-- `model.ConversionResult`. -/
structure ConversionResult where
  fromCurrency : Currency
  toCurrency : Currency
  fromAmount : ℚ
  toAmount : ℚ
  rate : ℚ
  date : Int
deriving DecidableEq, Repr

/-- `model.HistoricalRateRequest`. -/
structure HistoricalRateRequest where
  baseCurrency : Currency
  targetCurrency : Currency
  startDate : Int
  endDate : Int
deriving DecidableEq, Repr

/-- `model.HistoricalRates`; the `map[string]ExchangeRate` keyed by day
string becomes an association list in iteration order. -/
structure HistoricalRates where
  baseCurrency : Currency
  targetCurrency : Currency
  rates : List (String × ExchangeRate)
deriving DecidableEq, Repr

/-- Go map read `v, ok := m[k]`: first-match association-list lookup. -/
def assocLookup {α : Type} (m : List (String × α)) (key : String) : Option α :=
  match m with
  | [] => none
  | (k, v) :: rest => if k = key then some v else assocLookup rest key

/-- Go map assignment `m[k] = v`: overwrite the key's binding. -/
def assocInsert {α : Type} (m : List (String × α)) (key : String) (v : α) :
    List (String × α) :=
  (key, v) :: m.filter (fun e => e.1 != key)

/-- The provider's raw quote table `map[string]float64` (`"USDINR" ↦ 82.5`). -/
abbrev QuoteTable := List (String × ℚ)

/-- The provider client's secondary latest-rate memo
(`ExchangeAPI.latestRates`). -/
abbrev Memo := List (String × ExchangeRate)

/-- The error message built by `fmt.Errorf("rate not found for currency: %s", c)`. -/
def rateNotFoundMsg (c : Currency) : String :=
  "rate not found for currency: " ++ c

/-- `ExchangeAPI.extractRate` (internal/adapter/repository/exchange_api.go,
lines 104–183): derive a rate for `pair` from a USD-anchored quote table,
stamping today's day and the clock, and memoise successes in `latestRates`.
Returns the extraction result together with the updated memo. -/
def extractRate (latestRates : Memo) (quotes : QuoteTable) (pair : CurrencyPair)
    (now : Int) : Except String ExchangeRate × Memo :=
  if pair.baseCurrency = USD then
    match assocLookup quotes ("USD" ++ pair.targetCurrency) with
    | none => (.error (rateNotFoundMsg pair.targetCurrency), latestRates)
    | some rate =>
      let exchangeRate : ExchangeRate :=
        { baseCurrency := pair.baseCurrency, targetCurrency := pair.targetCurrency
          rate := rate, date := truncDay now, lastUpdated := now }
      (.ok exchangeRate, assocInsert latestRates pair.str exchangeRate)
  else if pair.targetCurrency = USD then
    match assocLookup quotes ("USD" ++ pair.baseCurrency) with
    | none => (.error (rateNotFoundMsg pair.baseCurrency), latestRates)
    | some rate =>
      let exchangeRate : ExchangeRate :=
        { baseCurrency := pair.baseCurrency, targetCurrency := pair.targetCurrency
          rate := 1 / rate, date := truncDay now, lastUpdated := now }
      (.ok exchangeRate, assocInsert latestRates pair.str exchangeRate)
  else
    match assocLookup quotes ("USD" ++ pair.baseCurrency) with
    | none => (.error (rateNotFoundMsg pair.baseCurrency), latestRates)
    | some baseRate =>
      match assocLookup quotes ("USD" ++ pair.targetCurrency) with
      | none => (.error (rateNotFoundMsg pair.targetCurrency), latestRates)
      | some targetRate =>
        let exchangeRate : ExchangeRate :=
          { baseCurrency := pair.baseCurrency, targetCurrency := pair.targetCurrency
            rate := targetRate / baseRate, date := truncDay now, lastUpdated := now }
        (.ok exchangeRate, assocInsert latestRates pair.str exchangeRate)

/-- `ExchangeAPI.extractHistoricalRate` (exchange_api.go, lines 235–289):
same derivation as `extractRate` but stamps the requested `date` and does
not touch the latest-rate memo. -/
def extractHistoricalRate (quotes : QuoteTable) (pair : CurrencyPair)
    (date : Int) (now : Int) : Except String ExchangeRate :=
  if pair.baseCurrency = USD then
    match assocLookup quotes ("USD" ++ pair.targetCurrency) with
    | none => .error (rateNotFoundMsg pair.targetCurrency)
    | some rate =>
      .ok { baseCurrency := pair.baseCurrency, targetCurrency := pair.targetCurrency
            rate := rate, date := date, lastUpdated := now }
  else if pair.targetCurrency = USD then
    match assocLookup quotes ("USD" ++ pair.baseCurrency) with
    | none => .error (rateNotFoundMsg pair.baseCurrency)
    | some rate =>
      .ok { baseCurrency := pair.baseCurrency, targetCurrency := pair.targetCurrency
            rate := 1 / rate, date := date, lastUpdated := now }
  else
    match assocLookup quotes ("USD" ++ pair.baseCurrency) with
    | none => .error (rateNotFoundMsg pair.baseCurrency)
    | some baseRate =>
      match assocLookup quotes ("USD" ++ pair.targetCurrency) with
      | none => .error (rateNotFoundMsg pair.targetCurrency)
      | some targetRate =>
        .ok { baseCurrency := pair.baseCurrency, targetCurrency := pair.targetCurrency
              rate := targetRate / baseRate, date := date, lastUpdated := now }

/-- `cache.MemoryCache` (internal/adapter/cache/memory.go): the TTL store
keyed by `"base-target-YYYY-MM-DD"` strings. -/
structure MemoryCache where
  cacheMap : List (String × ExchangeRate)
  cacheTTL : Int
deriving DecidableEq, Repr

/-- `cache.getCacheKey`: `fmt.Sprintf("%s-%s-%s", base, target, dateStr)`. -/
def getCacheKey (pair : CurrencyPair) (date : Int) : String :=
  pair.baseCurrency ++ "-" ++ pair.targetCurrency ++ "-" ++ formatDay date

/-- `MemoryCache.Get` (memory.go, lines 33–51): hit only when the key is
present and the entry is at most `cacheTTL` old; the store is returned
unchanged in every branch — a read never deletes. -/
def MemoryCache.Get (c : MemoryCache) (pair : CurrencyPair) (date : Int)
    (now : Int) : Option ExchangeRate × MemoryCache :=
  let key := getCacheKey pair date
  match assocLookup c.cacheMap key with
  | some rate =>
    if now - rate.lastUpdated > c.cacheTTL then (none, c) else (some rate, c)
  | none => (none, c)

/-- `MemoryCache.Set` (memory.go, lines 53–67): unconditional insert under
the key built from the rate's own pair and date; always succeeds. -/
def MemoryCache.Set (c : MemoryCache) (rate : ExchangeRate) : MemoryCache :=
  let pair : CurrencyPair :=
    { baseCurrency := rate.baseCurrency, targetCurrency := rate.targetCurrency }
  let key := getCacheKey pair rate.date
  { c with cacheMap := assocInsert c.cacheMap key rate }

/-- `MemoryCache.ClearExpired` (memory.go, lines 69–89): collect the keys of
entries strictly older than the TTL and delete them — i.e. keep exactly the
entries with `now - lastUpdated ≤ TTL`. -/
def MemoryCache.ClearExpired (c : MemoryCache) (now : Int) : MemoryCache :=
  { c with
    cacheMap := c.cacheMap.filter (fun e => !(decide (now - e.2.lastUpdated > c.cacheTTL))) }

/-- `service` package error values (part_002, lines 306–313). The Go
`fmt.Errorf("%w: %v", ErrExternalAPIFailure, err)` wrapping is modelled by
the constructor carrying the wrapped cause's message. -/
inductive ServiceError where
  | invalidCurrency
  | dateOutOfRange
  | invalidDateRange
  | rateNotFound
  | externalAPIFailure (cause : String)
  | invalidAmount
deriving DecidableEq, Repr

/-- `service.validateDate` (part_002, lines 471–480): reject dates strictly
before `today - 90 days` with `ErrDateOutOfRange`. -/
def validateDate (now : Int) (date : Int) : Except ServiceError Unit :=
  let today := truncDay now
  let ninetyDaysAgo := addDays today (-90)
  if date < ninetyDaysAgo then .error .dateOutOfRange else .ok ()

/-- `service.validateDateRange` (part_002, lines 482–497): both endpoints
must pass `validateDate`, then `start ≤ end`. -/
def validateDateRange (now : Int) (startDate endDate : Int) :
    Except ServiceError Unit :=
  match validateDate now startDate with
  | .error e => .error e
  | .ok _ =>
    match validateDate now endDate with
    | .error e => .error e
    | .ok _ => if startDate > endDate then .error .invalidDateRange else .ok ()

/-- The `ports.RateRepository` dependency of the service, as a record of the
operations the service calls (the service is programmed against the
interface; test doubles and `ExchangeAPI` both inhabit it). -/
structure RateRepo where
  fetchLatestRate : CurrencyPair → Except String ExchangeRate
  fetchHistoricalRate : CurrencyPair → Int → Except String ExchangeRate
  fetchHistoricalRates : HistoricalRateRequest → Except String HistoricalRates

/-- Observable calls the service layer issues against its collaborators,
recorded in order: cache lookups, cache writes, provider fetches. -/
inductive Event where
  | cacheGet (pair : CurrencyPair) (date : Int)
  | cacheSet (rate : ExchangeRate)
  | repoFetchLatest (pair : CurrencyPair)
  | repoFetchHistorical (pair : CurrencyPair) (date : Int)
deriving DecidableEq, Repr

/-- `ExchangeService.GetLatestRate` (part_002, lines 329–359): validate
currencies, consult the cache under `(pair, today)`, fall back to the
provider, write back best-effort.  Returns the result, the cache state
after the call, and the trace of collaborator calls. -/
def GetLatestRate (repo : RateRepo) (c : MemoryCache) (now : Int)
    (fromCur toCur : Currency) :
    Except ServiceError ExchangeRate × MemoryCache × List Event :=
  if ¬fromCur.IsSupported ∨ ¬toCur.IsSupported then
    (.error .invalidCurrency, c, [])
  else
    let pair : CurrencyPair := { baseCurrency := fromCur, targetCurrency := toCur }
    let today := truncDay now
    match (c.Get pair today now).1 with
    | some rate => (.ok rate, c, [.cacheGet pair today])
    | none =>
      match repo.fetchLatestRate pair with
      | .error e =>
        (.error (.externalAPIFailure e), c, [.cacheGet pair today, .repoFetchLatest pair])
      | .ok rate =>
        (.ok rate, c.Set rate,
          [.cacheGet pair today, .repoFetchLatest pair, .cacheSet rate])

/-- `ExchangeService.GetHistoricalRate` (part_002, lines 361–392): validate
currencies, validate the 90-day window, normalise the date to UTC midnight,
then cache → provider → best-effort write-back. -/
def GetHistoricalRate (repo : RateRepo) (c : MemoryCache) (now : Int)
    (fromCur toCur : Currency) (date : Int) :
    Except ServiceError ExchangeRate × MemoryCache × List Event :=
  if ¬fromCur.IsSupported ∨ ¬toCur.IsSupported then
    (.error .invalidCurrency, c, [])
  else
    match validateDate now date with
    | .error e => (.error e, c, [])
    | .ok _ =>
      let pair : CurrencyPair := { baseCurrency := fromCur, targetCurrency := toCur }
      let normalizedDate := truncDay date
      match (c.Get pair normalizedDate now).1 with
      | some rate => (.ok rate, c, [.cacheGet pair normalizedDate])
      | none =>
        match repo.fetchHistoricalRate pair normalizedDate with
        | .error e =>
          (.error (.externalAPIFailure e), c,
            [.cacheGet pair normalizedDate, .repoFetchHistorical pair normalizedDate])
        | .ok rate =>
          (.ok rate, c.Set rate,
            [.cacheGet pair normalizedDate, .repoFetchHistorical pair normalizedDate,
              .cacheSet rate])

/-- `ExchangeService.GetHistoricalRates` (part_002, lines 394–410): validate
currencies and the date range, then delegate to the repository, wrapping
provider errors as `ExternalAPIFailure`. -/
def GetHistoricalRates (repo : RateRepo) (now : Int)
    (request : HistoricalRateRequest) : Except ServiceError HistoricalRates :=
  if ¬request.baseCurrency.IsSupported ∨ ¬request.targetCurrency.IsSupported then
    .error .invalidCurrency
  else
    match validateDateRange now request.startDate request.endDate with
    | .error e => .error e
    | .ok _ =>
      match repo.fetchHistoricalRates request with
      | .error e => .error (.externalAPIFailure e)
      | .ok rates => .ok rates

/-- `ExchangeService.ConvertCurrency` (part_002, lines 412–452): validate
currencies, then amount, then resolve a rate (historical when a date is
supplied, latest otherwise) and multiply. -/
def ConvertCurrency (repo : RateRepo) (c : MemoryCache) (now : Int)
    (request : ConversionRequest) :
    Except ServiceError ConversionResult × MemoryCache × List Event :=
  if ¬request.fromCurrency.IsSupported ∨ ¬request.toCurrency.IsSupported then
    (.error .invalidCurrency, c, [])
  else if request.amount ≤ 0 then
    (.error .invalidAmount, c, [])
  else
    let resolved :
        Except ServiceError ExchangeRate × MemoryCache × List Event :=
      match request.date with
      | some d =>
        match validateDate now d with
        | .error e => (.error e, c, [])
        | .ok _ => GetHistoricalRate repo c now request.fromCurrency request.toCurrency d
      | none => GetLatestRate repo c now request.fromCurrency request.toCurrency
    match resolved with
    | (.error e, c1, events) => (.error e, c1, events)
    | (.ok rate, c1, events) =>
      (.ok { fromCurrency := request.fromCurrency, toCurrency := request.toCurrency
             fromAmount := request.amount, toAmount := request.amount * rate.rate
             rate := rate.rate, date := rate.date }, c1, events)

/-- `ExchangeAPI.FetchHistoricalRates`' day loop (exchange_api.go, lines
299–319): walk `currentDate` up to `endDate` one day at a time, fetching
each day via the provider (`fetchRate` abstracts `FetchHistoricalRate`,
i.e. the HTTP call plus `extractHistoricalRate`); a failed day is logged
and skipped, a successful day is recorded under its day string. -/
def fetchRangeLoop (fetchRate : CurrencyPair → Int → Except String ExchangeRate)
    (pair : CurrencyPair) (endDate : Int) (currentDate : Int) :
    List (String × ExchangeRate) :=
  if currentDate > endDate then []
  else
    match fetchRate pair currentDate with
    | .error _ => fetchRangeLoop fetchRate pair endDate (currentDate + nsPerDay)
    | .ok rate =>
      (formatDay currentDate, rate) ::
        fetchRangeLoop fetchRate pair endDate (currentDate + nsPerDay)
termination_by (endDate + nsPerDay - currentDate).toNat
decreasing_by
  simp only [nsPerDay]
  omega

/-- `ExchangeAPI.FetchHistoricalRates` (exchange_api.go, lines 291–322):
best-effort over the span, never a request-level error. -/
def FetchHistoricalRates
    (fetchRate : CurrencyPair → Int → Except String ExchangeRate)
    (request : HistoricalRateRequest) : Except String HistoricalRates :=
  let pair : CurrencyPair :=
    { baseCurrency := request.baseCurrency, targetCurrency := request.targetCurrency }
  .ok { baseCurrency := request.baseCurrency
        targetCurrency := request.targetCurrency
        rates := fetchRangeLoop fetchRate pair request.endDate request.startDate }

/-- Spec-side definition (for the range claim): the calendar days of the
closed range `[currentDate, endDate]` at one-day steps. -/
def specRangeDays (endDate : Int) (currentDate : Int) : List Int :=
  if currentDate > endDate then []
  else currentDate :: specRangeDays endDate (currentDate + nsPerDay)
termination_by (endDate + nsPerDay - currentDate).toNat
decreasing_by
  simp only [nsPerDay]
  omega

/-- A provider stub whose every fetch fails; used to instantiate
universally quantified repository arguments at concrete inputs. -/
def stubRepo : RateRepo where
  fetchLatestRate := fun _ => .error "stub failure"
  fetchHistoricalRate := fun _ _ => .error "stub failure"
  fetchHistoricalRates := fun _ => .error "stub failure"

/-- An empty TTL cache with a one-hour TTL. -/
def emptyCache : MemoryCache where
  cacheMap := []
  cacheTTL := 3600000000000

/-- C1: for every supported pair with `base ≠ target`, `extractRate` and
`extractHistoricalRate` resolve the rate from the USD-anchored quote
table: `quote("USD"+target)` when base is the anchor, `1/quote("USD"+base)`
when target is the anchor, and `quote("USD"+target)/quote("USD"+base)` in
the cross-rate case; any required key that is absent yields the
rate-not-found error naming the missing currency (the base side is checked
first in the cross-rate case). -/
theorem extract_resolution (base target : Currency) (quotes : QuoteTable)
    (latestRates : Memo) (now date : Int)
    (hbase : base.IsSupported = true) (htarget : target.IsSupported = true)
    (hne : base ≠ target) :
    (base = USD →
      (∀ q, assocLookup quotes ("USD" ++ target) = some q →
        (extractRate latestRates quotes ⟨base, target⟩ now).1 =
          .ok ⟨base, target, q, truncDay now, now⟩ ∧
        extractHistoricalRate quotes ⟨base, target⟩ date now =
          .ok ⟨base, target, q, date, now⟩) ∧
      (assocLookup quotes ("USD" ++ target) = none →
        (extractRate latestRates quotes ⟨base, target⟩ now).1 =
          .error (rateNotFoundMsg target) ∧
        extractHistoricalRate quotes ⟨base, target⟩ date now =
          .error (rateNotFoundMsg target))) ∧
    (target = USD →
      (∀ q, assocLookup quotes ("USD" ++ base) = some q →
        (extractRate latestRates quotes ⟨base, target⟩ now).1 =
          .ok ⟨base, target, 1 / q, truncDay now, now⟩ ∧
        extractHistoricalRate quotes ⟨base, target⟩ date now =
          .ok ⟨base, target, 1 / q, date, now⟩) ∧
      (assocLookup quotes ("USD" ++ base) = none →
        (extractRate latestRates quotes ⟨base, target⟩ now).1 =
          .error (rateNotFoundMsg base) ∧
        extractHistoricalRate quotes ⟨base, target⟩ date now =
          .error (rateNotFoundMsg base))) ∧
    (base ≠ USD → target ≠ USD →
      (∀ qb qt, assocLookup quotes ("USD" ++ base) = some qb →
        assocLookup quotes ("USD" ++ target) = some qt →
        (extractRate latestRates quotes ⟨base, target⟩ now).1 =
          .ok ⟨base, target, qt / qb, truncDay now, now⟩ ∧
        extractHistoricalRate quotes ⟨base, target⟩ date now =
          .ok ⟨base, target, qt / qb, date, now⟩) ∧
      (assocLookup quotes ("USD" ++ base) = none →
        (extractRate latestRates quotes ⟨base, target⟩ now).1 =
          .error (rateNotFoundMsg base) ∧
        extractHistoricalRate quotes ⟨base, target⟩ date now =
          .error (rateNotFoundMsg base)) ∧
      (∀ qb, assocLookup quotes ("USD" ++ base) = some qb →
        assocLookup quotes ("USD" ++ target) = none →
        (extractRate latestRates quotes ⟨base, target⟩ now).1 =
          .error (rateNotFoundMsg target) ∧
        extractHistoricalRate quotes ⟨base, target⟩ date now =
          .error (rateNotFoundMsg target))) := by
  refine ⟨?_, ?_, ?_⟩
  · intro hb
    subst hb
    constructor
    · intro q hq
      constructor <;> simp [extractRate, extractHistoricalRate, hq]
    · intro hq
      constructor <;> simp [extractRate, extractHistoricalRate, hq]
  · intro ht
    subst ht
    have hb : base ≠ USD := hne
    constructor
    · intro q hq
      constructor <;> simp [extractRate, extractHistoricalRate, hb, hq]
    · intro hq
      constructor <;> simp [extractRate, extractHistoricalRate, hb, hq]
  · intro hb ht
    refine ⟨?_, ?_, ?_⟩
    · intro qb qt hqb hqt
      constructor <;> simp [extractRate, extractHistoricalRate, hb, ht, hqb, hqt]
    · intro hqb
      constructor <;> simp [extractRate, extractHistoricalRate, hb, ht, hqb]
    · intro qb hqb hqt
      constructor <;> simp [extractRate, extractHistoricalRate, hb, ht, hqb, hqt]

/-- C1 witness: the cross-rate EUR→INR on a table holding both anchor
quotes resolves to `quote(USDINR)/quote(USDEUR)`. -/
theorem extract_resolution_witness :
    EUR.IsSupported = true ∧ INR.IsSupported = true ∧ EUR ≠ INR ∧
    (extractRate [] [("USDEUR", (9:ℚ)/10), ("USDINR", (165:ℚ)/2)] ⟨EUR, INR⟩ 5).1 =
      .ok ⟨EUR, INR, ((165:ℚ)/2) / ((9:ℚ)/10), truncDay 5, 5⟩ := by
  refine ⟨by decide, by decide, by decide, ?_⟩
  have h := extract_resolution EUR INR [("USDEUR", (9:ℚ)/10), ("USDINR", (165:ℚ)/2)]
    [] 5 3 (by decide) (by decide) (by decide)
  exact ((h.2.2 (by decide) (by decide)).1 ((9:ℚ)/10) ((165:ℚ)/2)
    (by rfl) (by rfl)).1

/-- C2 counterexample: with the quote `"USDINR" ↦ 0` present, resolving
INR→USD does not fail with rate-not-found — it succeeds and returns the
inverse of the zero quote (`1/0`, a float infinity in the implementation). -/
theorem extract_zeroQuote_counterexample :
    (extractRate [] [("USDINR", (0:ℚ))] ⟨INR, USD⟩ 0).1 =
      .ok ⟨INR, USD, 1 / 0, 0, 0⟩ := by
  rfl

/-- C2 amended: a present-but-zero anchor quote is not rejected — whenever
the required keys are present, `extractRate` and `extractHistoricalRate`
succeed regardless of the quoted values, returning the rate computed by the
division (so a zero divisor propagates into the division rather than
producing rate-not-found, which is reserved for absent keys). -/
theorem extract_zeroQuote_amended (latestRates : Memo) (quotes : QuoteTable)
    (pair : CurrencyPair) (now date : Int) :
    (pair.baseCurrency ≠ USD → pair.targetCurrency = USD →
      assocLookup quotes ("USD" ++ pair.baseCurrency) = some 0 →
      (extractRate latestRates quotes pair now).1 =
        .ok ⟨pair.baseCurrency, pair.targetCurrency, 1 / 0, truncDay now, now⟩ ∧
      extractHistoricalRate quotes pair date now =
        .ok ⟨pair.baseCurrency, pair.targetCurrency, 1 / 0, date, now⟩) ∧
    (pair.baseCurrency ≠ USD → pair.targetCurrency ≠ USD →
      ∀ qt, assocLookup quotes ("USD" ++ pair.baseCurrency) = some 0 →
        assocLookup quotes ("USD" ++ pair.targetCurrency) = some qt →
        (extractRate latestRates quotes pair now).1 =
          .ok ⟨pair.baseCurrency, pair.targetCurrency, qt / 0, truncDay now, now⟩ ∧
        extractHistoricalRate quotes pair date now =
          .ok ⟨pair.baseCurrency, pair.targetCurrency, qt / 0, date, now⟩) := by
  constructor
  · intro hb ht hq
    constructor <;> simp [extractRate, extractHistoricalRate, hb, ht, hq]
  · intro hb ht qt hqb hqt
    constructor <;> simp [extractRate, extractHistoricalRate, hb, ht, hqb, hqt]

/-- C2 amended witness: the INR→USD resolution over `"USDINR" ↦ 0`
succeeds with rate `1/0`. -/
theorem extract_zeroQuote_amended_witness :
    INR ≠ USD ∧
    (extractRate [] [("USDINR", (0:ℚ))] ⟨INR, USD⟩ 3).1 =
      .ok ⟨INR, USD, 1 / 0, truncDay 3, 3⟩ := by
  refine ⟨by decide, ?_⟩
  exact ((extract_zeroQuote_amended [] [("USDINR", (0:ℚ))] ⟨INR, USD⟩ 3 0).1
    (by decide) (by decide) (by rfl)).1

/-- C3: a cache read hits exactly when the `(pair, date)` key is present
and the entry's age `now - lastUpdated` is at most the TTL; every other
case (absent key, or present but strictly older than the TTL) is a miss,
and the read leaves the store untouched — in particular an expired entry
is reported as a miss but not removed. -/
theorem cacheGet_spec (c : MemoryCache) (pair : CurrencyPair) (date now : Int) :
    (∀ r, (c.Get pair date now).1 = some r ↔
      (assocLookup c.cacheMap (getCacheKey pair date) = some r ∧
        now - r.lastUpdated ≤ c.cacheTTL)) ∧
    (c.Get pair date now).2 = c := by
  constructor
  · intro r
    unfold MemoryCache.Get
    cases h : assocLookup c.cacheMap (getCacheKey pair date) with
    | none => simp [h]
    | some rate =>
      simp only [h]
      by_cases hexp : now - rate.lastUpdated > c.cacheTTL
      · simp only [if_pos hexp]
        constructor
        · intro habs
          exact absurd habs (by simp)
        · rintro ⟨hr, hle⟩
          cases hr
          omega
      · simp only [if_neg hexp]
        constructor
        · intro hr
          cases hr
          exact ⟨rfl, by omega⟩
        · rintro ⟨hr, _⟩
          cases hr
          rfl
  · unfold MemoryCache.Get
    cases h : assocLookup c.cacheMap (getCacheKey pair date) with
    | none => simp [h]
    | some rate =>
      simp only [h]
      by_cases hexp : now - rate.lastUpdated > c.cacheTTL
      · simp [if_pos hexp]
      · simp [if_neg hexp]

/-- C3 witness: the read characterisation instantiated on a one-entry
store at a concrete clock. -/
theorem cacheGet_spec_witness :
    (∀ r, (MemoryCache.Get ⟨[("USD-INR-0", ⟨USD, INR, (165:ℚ)/2, 0, 0⟩)], 10⟩
        ⟨USD, INR⟩ 0 4).1 = some r ↔
      (assocLookup [("USD-INR-0", (⟨USD, INR, (165:ℚ)/2, 0, 0⟩ : ExchangeRate))]
          (getCacheKey ⟨USD, INR⟩ 0) = some r ∧
        4 - r.lastUpdated ≤ (10:Int))) ∧
    (MemoryCache.Get ⟨[("USD-INR-0", ⟨USD, INR, (165:ℚ)/2, 0, 0⟩)], 10⟩
        ⟨USD, INR⟩ 0 4).2 =
      ⟨[("USD-INR-0", ⟨USD, INR, (165:ℚ)/2, 0, 0⟩)], 10⟩ :=
  cacheGet_spec ⟨[("USD-INR-0", ⟨USD, INR, (165:ℚ)/2, 0, 0⟩)], 10⟩ ⟨USD, INR⟩ 0 4

/-- C4: writing a rate and immediately reading the same
`(base, target, date)` key back returns that rate, provided less than the
TTL has elapsed since the rate's `lastUpdated` stamp. -/
theorem cacheSet_get_roundtrip (c : MemoryCache) (rate : ExchangeRate)
    (now : Int) (h : now - rate.lastUpdated < c.cacheTTL) :
    ((c.Set rate).Get ⟨rate.baseCurrency, rate.targetCurrency⟩ rate.date now).1 =
      some rate := by
  have hkeep : ¬(now - rate.lastUpdated > c.cacheTTL) := by omega
  unfold MemoryCache.Set MemoryCache.Get assocInsert
  simp [assocLookup, hkeep]

/-- C4 witness: set-then-get round-trip at a concrete rate well inside the
TTL window. -/
theorem cacheSet_get_roundtrip_witness :
    (4:Int) - 0 < 3600000000000 ∧
    ((emptyCache.Set ⟨USD, INR, (165:ℚ)/2, 0, 0⟩).Get ⟨USD, INR⟩ 0 4).1 =
      some ⟨USD, INR, (165:ℚ)/2, 0, 0⟩ := by
  refine ⟨by decide, ?_⟩
  exact cacheSet_get_roundtrip emptyCache ⟨USD, INR, (165:ℚ)/2, 0, 0⟩ 4 (by decide)

/-- C5: the expiry sweep is idempotent at a fixed clock instant — sweeping
twice leaves exactly the state one sweep produces; the second pass removes
nothing further. -/
theorem clearExpired_idempotent (c : MemoryCache) (now : Int) :
    (c.ClearExpired now).ClearExpired now = c.ClearExpired now := by
  unfold MemoryCache.ClearExpired
  simp only []
  congr 1
  generalize c.cacheMap = l
  induction l with
  | nil => rfl
  | cons e t ih =>
    by_cases he : now - e.2.lastUpdated > c.cacheTTL
    · simp [List.filter_cons, he, ih]
    · simp [List.filter_cons, he, ih]

/-- C5 witness: the sweep idempotence instantiated on a two-entry store
with one expired entry. -/
theorem clearExpired_idempotent_witness :
    ((MemoryCache.ClearExpired
        ⟨[("USD-INR-0", ⟨USD, INR, 82, 0, 0⟩), ("USD-EUR-0", ⟨USD, EUR, 1, 0, 50⟩)], 10⟩
        100).ClearExpired 100) =
      MemoryCache.ClearExpired
        ⟨[("USD-INR-0", ⟨USD, INR, 82, 0, 0⟩), ("USD-EUR-0", ⟨USD, EUR, 1, 0, 50⟩)], 10⟩
        100 :=
  clearExpired_idempotent
    ⟨[("USD-INR-0", ⟨USD, INR, 82, 0, 0⟩), ("USD-EUR-0", ⟨USD, EUR, 1, 0, 50⟩)], 10⟩ 100

/-- C6: the 90-day window is inclusive at its boundary — for any clock,
the date exactly 90 days before today passes `validateDate` while the date
91 days before fails with `DateOutOfRange`; accordingly
`GetHistoricalRate`, `GetHistoricalRates` and dated conversion all reject
the 91-day-old date with `DateOutOfRange` and never produce that error for
the 90-day-old date. -/
theorem dateWindow_boundary (repo : RateRepo) (c : MemoryCache) (now : Int)
    (fromCur toCur : Currency)
    (hf : fromCur.IsSupported = true) (ht : toCur.IsSupported = true) :
    validateDate now (addDays (truncDay now) (-90)) = .ok () ∧
    validateDate now (addDays (truncDay now) (-91)) = .error .dateOutOfRange ∧
    (GetHistoricalRate repo c now fromCur toCur (addDays (truncDay now) (-91))).1 =
      .error .dateOutOfRange ∧
    (GetHistoricalRate repo c now fromCur toCur (addDays (truncDay now) (-90))).1 ≠
      .error .dateOutOfRange ∧
    GetHistoricalRates repo now
        ⟨fromCur, toCur, addDays (truncDay now) (-91), truncDay now⟩ =
      .error .dateOutOfRange ∧
    (ConvertCurrency repo c now
        ⟨fromCur, toCur, 1, some (addDays (truncDay now) (-91))⟩).1 =
      .error .dateOutOfRange ∧
    (ConvertCurrency repo c now
        ⟨fromCur, toCur, 1, some (addDays (truncDay now) (-90))⟩).1 ≠
      .error .dateOutOfRange := by
  have hlt : addDays (truncDay now) (-91) < addDays (truncDay now) (-90) := by
    simp only [addDays, nsPerDay]
    omega
  have h90 : validateDate now (addDays (truncDay now) (-90)) = .ok () := by
    simp [validateDate]
  have h91 : validateDate now (addDays (truncDay now) (-91)) =
      .error .dateOutOfRange := by
    simp [validateDate, hlt]
  have hcur : ¬(¬fromCur.IsSupported = true ∨ ¬toCur.IsSupported = true) := by
    simp [hf, ht]
  have hhist91 : (GetHistoricalRate repo c now fromCur toCur
      (addDays (truncDay now) (-91))).1 = .error .dateOutOfRange := by
    unfold GetHistoricalRate
    simp [hf, ht, h91]
  have hhist90 : (GetHistoricalRate repo c now fromCur toCur
      (addDays (truncDay now) (-90))).1 ≠ .error .dateOutOfRange := by
    unfold GetHistoricalRate
    simp only [hf, ht, h90, if_neg hcur]
    cases hget : (c.Get ⟨fromCur, toCur⟩ (truncDay (addDays (truncDay now) (-90))) now).1 with
    | some rate => simp
    | none =>
      cases hrepo : repo.fetchHistoricalRate ⟨fromCur, toCur⟩
          (truncDay (addDays (truncDay now) (-90))) with
      | error e => simp [hget, hrepo]
      | ok rate => simp [hget, hrepo]
  refine ⟨h90, h91, hhist91, hhist90, ?_, ?_, ?_⟩
  · unfold GetHistoricalRates validateDateRange
    simp [hf, ht, h91]
  · unfold ConvertCurrency
    have hamt : ¬((1:ℚ) ≤ 0) := by norm_num
    simp [hf, ht, h91, hamt]
  · unfold ConvertCurrency
    simp only [hf, ht, h90, if_neg hcur]
    have hamt : ¬((1:ℚ) ≤ 0) := by norm_num
    simp only [if_neg hamt]
    cases hres : GetHistoricalRate repo c now fromCur toCur
        (addDays (truncDay now) (-90)) with
    | mk res rest =>
      cases res with
      | error e =>
        have : e ≠ .dateOutOfRange := by
          intro he
          exact hhist90 (by rw [hres, he])
        simp [hres, h90, this]
      | ok rate => simp [hres, h90]

/-- C6 witness: the boundary facts at clock 0 for the supported pair
USD→INR against the stub provider and the empty cache. -/
theorem dateWindow_boundary_witness :
    USD.IsSupported = true ∧ INR.IsSupported = true ∧
    validateDate 0 (addDays (truncDay 0) (-90)) = .ok () ∧
    (GetHistoricalRate stubRepo emptyCache 0 USD INR
      (addDays (truncDay 0) (-91))).1 = .error .dateOutOfRange := by
  have h := dateWindow_boundary stubRepo emptyCache 0 USD INR (by decide) (by decide)
  exact ⟨by decide, by decide, h.1, h.2.2.1⟩

/-- A concrete cached USD→INR rate of 82.5 (= 165/2), freshly stamped. -/
def rate825 : ExchangeRate :=
  { baseCurrency := USD, targetCurrency := INR, rate := (165:ℚ)/2
    date := 0, lastUpdated := 0 }

/-- A cache holding `rate825` under today's key at clock 0, one-hour TTL. -/
def cache825 : MemoryCache :=
  { cacheMap := [("USD-INR-0", rate825)], cacheTTL := 3600000000000 }

/-- C7: when both currencies are supported, the amount is positive, and the
rate resolution (latest, or historical when a date is supplied and passes
validation) succeeds with rate `r`, conversion returns a result carrying
`fromAmount = amount`, `toAmount = amount * r.rate`, `rate = r.rate` and
`date = r.date`, together with the resolution's cache state and trace. -/
theorem convertCurrency_success (repo : RateRepo) (c : MemoryCache) (now : Int)
    (request : ConversionRequest) (r : ExchangeRate) (c1 : MemoryCache)
    (events : List Event)
    (hf : request.fromCurrency.IsSupported = true)
    (ht : request.toCurrency.IsSupported = true)
    (hamt : 0 < request.amount) :
    (request.date = none →
      GetLatestRate repo c now request.fromCurrency request.toCurrency =
        (.ok r, c1, events) →
      ConvertCurrency repo c now request =
        (.ok { fromCurrency := request.fromCurrency
               toCurrency := request.toCurrency
               fromAmount := request.amount
               toAmount := request.amount * r.rate
               rate := r.rate, date := r.date }, c1, events)) ∧
    (∀ d, request.date = some d →
      validateDate now d = .ok () →
      GetHistoricalRate repo c now request.fromCurrency request.toCurrency d =
        (.ok r, c1, events) →
      ConvertCurrency repo c now request =
        (.ok { fromCurrency := request.fromCurrency
               toCurrency := request.toCurrency
               fromAmount := request.amount
               toAmount := request.amount * r.rate
               rate := r.rate, date := r.date }, c1, events)) := by
  have hle : ¬(request.amount ≤ 0) := by exact not_le.mpr hamt
  constructor
  · intro hdate hres
    unfold ConvertCurrency
    simp [hf, ht, hle, hdate, hres]
  · intro d hdate hvalid hres
    unfold ConvertCurrency
    simp [hf, ht, hle, hdate, hvalid, hres]

/-- C7 witness: converting 100 USD to INR against a cached rate of 82.5
yields `toAmount = 8250`. -/
theorem convertCurrency_success_witness :
    (0:ℚ) < 100 ∧
    ConvertCurrency stubRepo cache825 0 ⟨USD, INR, 100, none⟩ =
      (.ok ⟨USD, INR, 100, 8250, (165:ℚ)/2, 0⟩, cache825,
        [.cacheGet ⟨USD, INR⟩ 0]) := by
  refine ⟨by norm_num, ?_⟩
  have hres : GetLatestRate stubRepo cache825 0 USD INR =
      (.ok rate825, cache825, [.cacheGet ⟨USD, INR⟩ 0]) := by rfl
  have h := (convertCurrency_success stubRepo cache825 0 ⟨USD, INR, 100, none⟩
    rate825 cache825 [.cacheGet ⟨USD, INR⟩ 0]
    (by decide) (by decide) (by norm_num)).1 rfl hres
  rw [h]
  norm_num [rate825]

/-- C8: conversion validation order — with both currencies supported and a
non-positive amount, conversion fails with `InvalidAmount` for every cache
and provider state, issuing no collaborator call (empty trace, cache
unchanged); with either currency unsupported, `InvalidCurrency` is
returned first, before the amount is even examined, likewise without any
collaborator call. -/
theorem convertCurrency_validation_order (repo : RateRepo) (c : MemoryCache)
    (now : Int) (request : ConversionRequest) :
    (request.fromCurrency.IsSupported = true →
      request.toCurrency.IsSupported = true →
      request.amount ≤ 0 →
      ConvertCurrency repo c now request = (.error .invalidAmount, c, [])) ∧
    ((request.fromCurrency.IsSupported = false ∨
        request.toCurrency.IsSupported = false) →
      ConvertCurrency repo c now request = (.error .invalidCurrency, c, [])) := by
  constructor
  · intro hf ht hamt
    unfold ConvertCurrency
    simp [hf, ht, hamt]
  · intro hbad
    unfold ConvertCurrency
    rcases hbad with h | h <;> simp [h]

/-- C8 witness: amount −100 on supported USD→INR yields `InvalidAmount`
with no collaborator call, and the unsupported code "XYZ" yields
`InvalidCurrency` first even with a positive amount. -/
theorem convertCurrency_validation_order_witness :
    (-100:ℚ) ≤ 0 ∧
    ConvertCurrency stubRepo emptyCache 0 ⟨USD, INR, -100, none⟩ =
      (.error .invalidAmount, emptyCache, []) ∧
    ConvertCurrency stubRepo emptyCache 0 ⟨"XYZ", INR, -100, none⟩ =
      (.error .invalidCurrency, emptyCache, []) := by
  refine ⟨by norm_num, ?_, ?_⟩
  · exact (convertCurrency_validation_order stubRepo emptyCache 0
      ⟨USD, INR, -100, none⟩).1 (by decide) (by decide) (by norm_num)
  · exact (convertCurrency_validation_order stubRepo emptyCache 0
      ⟨"XYZ", INR, -100, none⟩).2 (Or.inl (by decide))

/-- One unfolding step of `specRangeDays`, as a rewriting equation. -/
theorem specRangeDays_step (endDate currentDate : Int) :
    specRangeDays endDate currentDate =
      if currentDate > endDate then []
      else currentDate :: specRangeDays endDate (currentDate + nsPerDay) := by
  conv_lhs => unfold specRangeDays

/-- The repository's range loop computes, over the days of the closed
range, exactly the best-effort per-day results: failing days drop out,
successful days are keyed by their day string. -/
theorem fetchRangeLoop_eq_filterMap
    (fetchRate : CurrencyPair → Int → Except String ExchangeRate)
    (pair : CurrencyPair) (endDate : Int) :
    ∀ (n : Nat) (currentDate : Int),
      (endDate + nsPerDay - currentDate).toNat ≤ n →
      fetchRangeLoop fetchRate pair endDate currentDate =
        (specRangeDays endDate currentDate).filterMap (fun d =>
          match fetchRate pair d with
          | .ok r => some (formatDay d, r)
          | .error _ => none) := by
  intro n
  induction n with
  | zero =>
    intro currentDate h
    have hgt : currentDate > endDate := by
      simp only [nsPerDay] at h
      omega
    unfold fetchRangeLoop specRangeDays
    simp [hgt]
  | succ n ih =>
    intro currentDate h
    by_cases hgt : currentDate > endDate
    · unfold fetchRangeLoop specRangeDays
      simp [hgt]
    · unfold fetchRangeLoop specRangeDays
      simp only [if_neg hgt, List.filterMap_cons]
      have hrec := ih (currentDate + nsPerDay)
        (by simp only [nsPerDay] at h ⊢; omega)
      cases hfd : fetchRate pair currentDate with
      | error e => simp [hfd, hrec]
      | ok r => simp [hfd, hrec]

/-- C9: for a closed range with `start ≤ end`, the repository's range fetch
never surfaces a request-level error — it returns, for each calendar day of
the range, the per-day result when that day's fetch succeeds, and silently
omits the days whose fetch fails. -/
theorem fetchHistoricalRates_bestEffort
    (fetchRate : CurrencyPair → Int → Except String ExchangeRate)
    (request : HistoricalRateRequest)
    (hle : request.startDate ≤ request.endDate) :
    FetchHistoricalRates fetchRate request =
      .ok { baseCurrency := request.baseCurrency
            targetCurrency := request.targetCurrency
            rates := (specRangeDays request.endDate request.startDate).filterMap
              (fun d =>
                match fetchRate ⟨request.baseCurrency, request.targetCurrency⟩ d with
                | .ok r => some (formatDay d, r)
                | .error _ => none) } := by
  simp only [FetchHistoricalRates]
  rw [fetchRangeLoop_eq_filterMap fetchRate
    ⟨request.baseCurrency, request.targetCurrency⟩ request.endDate
    (request.endDate + nsPerDay - request.startDate).toNat
    request.startDate (le_refl _)]

/-- A per-day provider that fails exactly on day 1 (the middle day of the
three-day witness range) and succeeds elsewhere. -/
def rangeStubFetch : CurrencyPair → Int → Except String ExchangeRate :=
  fun pair d =>
    if d = nsPerDay then .error "provider unavailable"
    else .ok { baseCurrency := pair.baseCurrency
               targetCurrency := pair.targetCurrency
               rate := 1, date := d, lastUpdated := 0 }

/-- C9 witness: a three-day range whose middle day fails yields a
two-entry result (first and last day) with no error surfaced. -/
theorem fetchHistoricalRates_bestEffort_witness :
    (0:Int) ≤ 2 * nsPerDay ∧
    FetchHistoricalRates rangeStubFetch ⟨USD, INR, 0, 2 * nsPerDay⟩ =
      .ok ⟨USD, INR,
        [(formatDay 0, ⟨USD, INR, 1, 0, 0⟩),
         (formatDay (2 * nsPerDay), ⟨USD, INR, 1, 2 * nsPerDay, 0⟩)]⟩ := by
  have hdays : specRangeDays (2 * nsPerDay) 0 = [0, nsPerDay, 2 * nsPerDay] := by
    rw [specRangeDays_step, specRangeDays_step, specRangeDays_step,
      specRangeDays_step]
    norm_num [nsPerDay]
  constructor
  · norm_num [nsPerDay]
  · rw [fetchHistoricalRates_bestEffort rangeStubFetch ⟨USD, INR, 0, 2 * nsPerDay⟩
      (by norm_num [nsPerDay])]
    rw [hdays]
    simp only [List.filterMap_cons, List.filterMap_nil, rangeStubFetch, nsPerDay]
    norm_num

/-- C10 counterexample: `GetLatestRate` invoked with `from = to = USD` (a
supported currency) issues both a cache lookup and a provider fetch for the
degenerate pair `(USD, USD)` — a `base == target` pair does reach both
collaborators. -/
theorem samePair_counterexample :
    Event.cacheGet ⟨USD, USD⟩ 0 ∈ (GetLatestRate stubRepo emptyCache 0 USD USD).2.2 ∧
    Event.repoFetchLatest ⟨USD, USD⟩ ∈
      (GetLatestRate stubRepo emptyCache 0 USD USD).2.2 := by
  decide

/-- C10 amended: the service layer does not filter `base == target` — for
every cache and provider state, `GetLatestRate` invoked with `from = to` on
a supported currency issues a cache lookup for the degenerate pair
`(from, from)`, and additionally a provider fetch for that same pair
whenever the cache misses. -/
theorem samePair_passthrough (repo : RateRepo) (c : MemoryCache) (now : Int)
    (cur : Currency) (h : cur.IsSupported = true) :
    Event.cacheGet ⟨cur, cur⟩ (truncDay now) ∈
      (GetLatestRate repo c now cur cur).2.2 ∧
    ((c.Get ⟨cur, cur⟩ (truncDay now) now).1 = none →
      Event.repoFetchLatest ⟨cur, cur⟩ ∈
        (GetLatestRate repo c now cur cur).2.2) := by
  unfold GetLatestRate
  simp only [h]
  constructor
  · cases hget : (c.Get ⟨cur, cur⟩ (truncDay now) now).1 with
    | some rate => simp [hget]
    | none =>
      cases hrepo : repo.fetchLatestRate ⟨cur, cur⟩ with
      | error e => simp [hget, hrepo]
      | ok rate => simp [hget, hrepo]
  · intro hget
    cases hrepo : repo.fetchLatestRate ⟨cur, cur⟩ with
    | error e => simp [hget, hrepo]
    | ok rate => simp [hget, hrepo]

/-- C10 amended witness: with the empty cache and stub provider,
`GetLatestRate USD USD` traces both degenerate-pair calls. -/
theorem samePair_passthrough_witness :
    USD.IsSupported = true ∧
    Event.cacheGet ⟨USD, USD⟩ (truncDay 0) ∈
      (GetLatestRate stubRepo emptyCache 0 USD USD).2.2 ∧
    Event.repoFetchLatest ⟨USD, USD⟩ ∈
      (GetLatestRate stubRepo emptyCache 0 USD USD).2.2 :=
  ⟨by decide,
    (samePair_passthrough stubRepo emptyCache 0 USD (by decide)).1,
    (samePair_passthrough stubRepo emptyCache 0 USD (by decide)).2 (by rfl)⟩

end ExchangeRateService
